import Mathlib

/-!
Shallow embedding of `pynuodb/cursor.py`: the `Cursor` class and the
`StatementCache` class (bounded LRU cache of prepared-statement handles),
together with a trace-recording model of the external session and result-set
collaborators (spec, section 6).  Python mutation is modelled by explicit
state passing; a raised exception is an `Except.error` value that still
carries the mutated state (Python exceptions do not roll back mutations).
-/

namespace PyNuoDB

/-- A fetched row (row values are opaque to this layer; we use integers). -/
abbrev Row := List Int

/-- One call made to the external session / result set, recorded in a trace. -/
inductive SessionCall where
  | createStatement (h : Nat)
  | createPreparedStatement (text : String) (h : Nat)
  | closeStatement (h : Nat)
  | executeStatement (h : Nat) (text : String)
  | executePreparedStatement (h : Nat) (nparams : Nat)
  | executeBatchPreparedStatement (h : Nat) (nbatches : Nat)
  | fetchResultSet (stmtRef : Nat)
  | fetchResultSetDescription (rsId : Nat)
  | resultSetFetchRow (rsId : Nat)
  | resultSetClose (rsId : Nat)
  deriving DecidableEq, Repr

/-- Python exceptions raised by the embedded code.  `error` is
`pynuodb.exception.Error`, `notSupportedError` is `NotSupportedError`,
`programmingError` is `ProgrammingError`; the last three model the built-in
exceptions raised by `deque.remove`, `deque.popleft` and `dict[...]`. -/
inductive PyError where
  | error (msg : String)
  | notSupportedError (msg : String)
  | programmingError (msg : String)
  | valueError
  | indexError
  | keyError
  deriving DecidableEq, Repr

/-- Modelled from the spec: the external session's fixed responses (section 6).
Each oracle is keyed by the query text the handle was created for. -/
structure SessionEnv where
  parameter_count : String → Nat
  exec_row_count : String → Int
  exec_result : String → Int
  rs_rows : String → List Row
  rs_description : String → List String

/-- Modelled from the spec: observable state of the external session —
its liveness flag, a fresh-handle counter, and the trace of calls made to it. -/
structure SessionState where
  closed : Bool
  nextHandle : Nat
  trace : List SessionCall
  deriving DecidableEq, Repr

/-- A fresh session: open, no calls made yet. -/
def freshSession : SessionState :=
  { closed := false, nextHandle := 0, trace := [] }

/-- Append one call to the session trace. -/
def SessionState.record (s : SessionState) (c : SessionCall) : SessionState :=
  { s with trace := s.trace ++ [c] }

/-- A prepared-statement handle (`pynuodb.statement.PreparedStatement`):
carries a declared `parameter_count`.  The `text` field models the session's
internal association of the handle with the query it prepared. -/
structure PreparedStatement where
  handle : Nat
  parameter_count : Nat
  text : String
  deriving DecidableEq, Repr

/-- Result of `session.execute_statement` / `execute_prepared_statement`:
a row count, a result indicator (`> 0` means a result set was produced) and
the statement reference used to fetch the result set.  The `text` field
models which query the reference refers to. -/
structure ExecResult where
  row_count : Int
  result : Int
  statement : Nat
  text : String
  deriving DecidableEq, Repr

/-- Modelled from the spec: a result-set handle (`createStatement`-style ids),
holding the not-yet-fetched rows the server would deliver for its query. -/
structure ResultSet where
  id : Nat
  text : String
  rows : List Row
  deriving DecidableEq, Repr

/-- Modelled from the spec: `session.create_statement()` allocates a fresh
generic statement handle. -/
def create_statement (s : SessionState) : Nat × SessionState :=
  (s.nextHandle,
   { s with nextHandle := s.nextHandle + 1,
            trace := s.trace ++ [.createStatement s.nextHandle] })

/-- Modelled from the spec: `session.create_prepared_statement(text)` allocates
a fresh prepared-statement handle whose `parameter_count` the server reports. -/
def create_prepared_statement (env : SessionEnv) (text : String) (s : SessionState) :
    PreparedStatement × SessionState :=
  ({ handle := s.nextHandle, parameter_count := env.parameter_count text, text := text },
   { s with nextHandle := s.nextHandle + 1,
            trace := s.trace ++ [.createPreparedStatement text s.nextHandle] })

/-- Modelled from the spec: `session.close_statement(handle)`. -/
def close_statement (h : Nat) (s : SessionState) : SessionState :=
  s.record (.closeStatement h)

/-- Modelled from the spec: `session.execute_statement(handle, text)`. -/
def execute_statement (env : SessionEnv) (h : Nat) (text : String) (s : SessionState) :
    ExecResult × SessionState :=
  ({ row_count := env.exec_row_count text, result := env.exec_result text,
     statement := h, text := text },
   s.record (.executeStatement h text))

/-- Modelled from the spec: `session.execute_prepared_statement(ps, params)`. -/
def execute_prepared_statement (env : SessionEnv) (ps : PreparedStatement)
    (params : List Int) (s : SessionState) : ExecResult × SessionState :=
  ({ row_count := env.exec_row_count ps.text, result := env.exec_result ps.text,
     statement := ps.handle, text := ps.text },
   s.record (.executePreparedStatement ps.handle params.length))

/-- Modelled from the spec: `session.execute_batch_prepared_statement`. -/
def execute_batch_prepared_statement (ps : PreparedStatement)
    (seq : List (List Int)) (s : SessionState) : SessionState :=
  s.record (.executeBatchPreparedStatement ps.handle seq.length)

/-- Modelled from the spec: `session.fetch_result_set(statement_ref)` returns a
fresh result-set handle over the rows the server produced. -/
def fetch_result_set (env : SessionEnv) (r : ExecResult) (s : SessionState) :
    ResultSet × SessionState :=
  ({ id := s.nextHandle, text := r.text, rows := env.rs_rows r.text },
   { s with nextHandle := s.nextHandle + 1,
            trace := s.trace ++ [.fetchResultSet r.statement] })

/-- Modelled from the spec: `session.fetch_result_set_description(rs)`. -/
def fetch_result_set_description (env : SessionEnv) (rs : ResultSet) (s : SessionState) :
    List String × SessionState :=
  (env.rs_description rs.text, s.record (.fetchResultSetDescription rs.id))

/-- Modelled from the spec: `result_set.fetchone(session)` — deliver the next
row, or `none` when exhausted. -/
def ResultSet.fetchone (rs : ResultSet) (s : SessionState) :
    Option Row × ResultSet × SessionState :=
  (rs.rows.head?, { rs with rows := rs.rows.tail }, s.record (.resultSetFetchRow rs.id))

/-- Modelled from the spec: `result_set.close(session)`. -/
def ResultSet.close (rs : ResultSet) (s : SessionState) : SessionState :=
  s.record (.resultSetClose rs.id)

/-! ## Python container helpers

`StatementCache._ps_cache` is a Python `dict` (insertion-ordered); we model it
as an association list in insertion order.  `_ps_key_queue` is a
`collections.deque` of strings, oldest first. -/

/-- Python `dict.get(k)`: the value at `k`, or `none`. -/
def dictGet (d : List (String × PreparedStatement)) (k : String) :
    Option PreparedStatement :=
  (d.find? (fun p => p.1 == k)).map Prod.snd

/-- Python `del d[k]` (key assumed present by the caller): removes the binding,
keeping the remaining entries in order. -/
def dictDel (d : List (String × PreparedStatement)) (k : String) :
    List (String × PreparedStatement) :=
  d.filter (fun p => !(p.1 == k))

/-- Python `d[k] = v`: replaces in place if present, else appends. -/
def dictInsert (d : List (String × PreparedStatement)) (k : String)
    (v : PreparedStatement) : List (String × PreparedStatement) :=
  if d.any (fun p => p.1 == k) then
    d.map (fun p => if p.1 == k then (k, v) else p)
  else d ++ [(k, v)]

/-- The key list of the cache dict, in insertion order. -/
def keysOf (d : List (String × PreparedStatement)) : List String :=
  d.map Prod.fst

/-! ## StatementCache (`cursor.py`, class StatementCache) -/

/-- State of `StatementCache`: the scratch statement handle, the dict from
query text to prepared statement, the recency deque (oldest first), and the
fixed capacity. -/
structure StatementCache where
  _statement : Nat
  _ps_cache : List (String × PreparedStatement)
  _ps_key_queue : List String
  _ps_cache_size : Nat
  deriving DecidableEq, Repr

/-- Embedded `StatementCache.__init__(session, prepared_statement_cache_size)`. -/
def StatementCache.init (s : SessionState) (size : Nat) :
    StatementCache × SessionState :=
  let (h, s) := create_statement s
  ({ _statement := h, _ps_cache := [], _ps_key_queue := [], _ps_cache_size := size }, s)

/-- Embedded `StatementCache.get_statement()`: returns the scratch handle (no state
change). -/
def StatementCache.get_statement (c : StatementCache) : Nat :=
  c._statement

/-- The eviction loop of `get_prepared_statement`:
`while len(self._ps_cache) >= self._ps_cache_size:` pop the least-recently-used
key, close its handle through the session, delete it from the dict.
`popleft` on an empty deque raises `IndexError`; a missing dict key raises
`KeyError`. -/
def evictLoop (cache : List (String × PreparedStatement)) (queue : List String)
    (size : Nat) (s : SessionState) :
    Except PyError Unit × List (String × PreparedStatement) × List String × SessionState :=
  match queue with
  | [] =>
    if size ≤ cache.length then (.error .indexError, cache, [], s)
    else (.ok (), cache, [], s)
  | lru_statement_key :: rest =>
    if size ≤ cache.length then
      match dictGet cache lru_statement_key with
      | none => (.error .keyError, cache, rest, s)
      | some statement_to_remove =>
        evictLoop (dictDel cache lru_statement_key) rest size
          (close_statement statement_to_remove.handle s)
    else (.ok (), cache, lru_statement_key :: rest, s)

/-- Embedded `StatementCache.get_prepared_statement(query)`:  on a hit, refresh the
key's recency (deque `remove` + `append`; `remove` raises `ValueError` when
the key is absent from the deque) and return the cached handle; on a miss,
create a fresh prepared handle through the session, evict while at capacity,
then insert the new entry at the most-recently-used end. -/
def StatementCache.get_prepared_statement (env : SessionEnv) (c : StatementCache)
    (query : String) (s : SessionState) :
    Except PyError PreparedStatement × StatementCache × SessionState :=
  match dictGet c._ps_cache query with
  | some statement =>
    if query ∈ c._ps_key_queue then
      (.ok statement,
       { c with _ps_key_queue := c._ps_key_queue.erase query ++ [query] }, s)
    else (.error .valueError, c, s)
  | none =>
    let (statement, s) := create_prepared_statement env query s
    match evictLoop c._ps_cache c._ps_key_queue c._ps_cache_size s with
    | (.error e, cache, queue, s) =>
      (.error e, { c with _ps_cache := cache, _ps_key_queue := queue }, s)
    | (.ok _, cache, queue, s) =>
      (.ok statement,
       { c with _ps_cache := dictInsert cache query statement,
                _ps_key_queue := queue ++ [query] }, s)

/-- Embedded `StatementCache.shutdown()`: close the scratch handle, close every cached
handle (dict iteration order = insertion order), then clear both containers. -/
def StatementCache.shutdown (c : StatementCache) (s : SessionState) :
    StatementCache × SessionState :=
  let s := close_statement c._statement s
  let s := c._ps_cache.foldl (fun acc p => close_statement p.2.handle acc) s
  ({ c with _ps_cache := [], _ps_key_queue := [] }, s)

/-! ## Cursor (`cursor.py`, class Cursor) -/

/-- Embedded `Error("cursor is closed")` — the spec's ClosedResourceError. -/
def cursorClosedError : PyError := .error "cursor is closed"

/-- Embedded `Error("connection is closed")` — the spec's ClosedResourceError. -/
def connectionClosedError : PyError := .error "connection is closed"

/-- Embedded `Error(...)` raised by `fetchone` with no result set — the spec's
NoResultsError. -/
def noResultsError : PyError :=
  .error "Previous execute did not produce any results or no call was issued yet"

/-- The `ProgrammingError` message of `_executeprepared` — the spec's
ParameterCountError, carrying the expected and the actual count. -/
def paramCountMsg (expected got : Nat) : String :=
  "Incorrect number of parameters specified, expected " ++ toString expected
    ++ ", got " ++ toString got

/-- State of a `Cursor`.  The Python object also holds the session; here the
session state is threaded explicitly through every operation. -/
structure Cursor where
  _statement_cache : StatementCache
  _result_set : Option ResultSet
  closed : Bool
  arraysize : Nat
  description : Option (List String)
  rowcount : Int
  colcount : Int
  rownumber : Nat
  __query : Option String
  deriving DecidableEq, Repr

/-- Embedded `Cursor.__init__(session, prepared_statement_cache_size)`. -/
def Cursor.init (s : SessionState) (prepared_statement_cache_size : Nat) :
    Cursor × SessionState :=
  let (cache, s) := StatementCache.init s prepared_statement_cache_size
  ({ _statement_cache := cache, _result_set := none, closed := false,
     arraysize := 1, description := none, rowcount := -1, colcount := -1,
     rownumber := 0, __query := none }, s)

/-- The `query` property: the most recent query. -/
def Cursor.query (c : Cursor) : Option String :=
  c.__query

/-- Embedded `Cursor._check_closed()`: raise if the cursor or the session is closed. -/
def Cursor._check_closed (c : Cursor) (s : SessionState) : Except PyError Unit :=
  if c.closed then .error cursorClosedError
  else if s.closed then .error connectionClosedError
  else .ok ()

/-- Embedded `Cursor._reset()`: clear description, row counts, and the held result-set
reference (no session call is made). -/
def Cursor._reset (c : Cursor) : Cursor :=
  { c with description := none, rowcount := -1, colcount := -1, _result_set := none }

/-- Embedded `Cursor._execute(operation)`: run the scratch statement. -/
def Cursor._execute (env : SessionEnv) (c : Cursor) (operation : String)
    (s : SessionState) : ExecResult × SessionState :=
  execute_statement env c._statement_cache.get_statement operation s

/-- Embedded `Cursor._executeprepared(operation, parameters)`: resolve a cached
prepared handle, validate the parameter count, then execute.  The cache
mutation performed by the resolution survives even when the count check
raises. -/
def Cursor._executeprepared (env : SessionEnv) (c : Cursor) (operation : String)
    (parameters : List Int) (s : SessionState) :
    Except PyError ExecResult × Cursor × SessionState :=
  match c._statement_cache.get_prepared_statement env operation s with
  | (.error e, cache, s) => (.error e, { c with _statement_cache := cache }, s)
  | (.ok p_statement, cache, s) =>
    let c := { c with _statement_cache := cache }
    if p_statement.parameter_count ≠ parameters.length then
      (.error (.programmingError
        (paramCountMsg p_statement.parameter_count parameters.length)), c, s)
    else
      let (r, s) := execute_prepared_statement env p_statement parameters s
      (.ok r, c, s)

/-- Embedded `Cursor.execute(operation, parameters=None)`. -/
def Cursor.execute (env : SessionEnv) (c : Cursor) (operation : String)
    (parameters : Option (List Int)) (s : SessionState) :
    Except PyError Unit × Cursor × SessionState :=
  match c._check_closed s with
  | .error e => (.error e, c, s)
  | .ok _ =>
    let c := c._reset
    let c := { c with __query := some operation }
    match (match parameters with
           | none =>
             let (r, s) := c._execute env operation s
             (Except.ok r, c, s)
           | some ps => c._executeprepared env operation ps s) with
    | (.error e, c, s) => (.error e, c, s)
    | (.ok exec_result, c, s) =>
      let c := { c with rowcount := exec_result.row_count }
      let (c, s) :=
        if exec_result.result > 0 then
          let (rs, s) := fetch_result_set env exec_result s
          let (desc, s) := fetch_result_set_description env rs s
          ({ c with _result_set := some rs, description := some desc }, s)
        else (c, s)
      let c := if c.rowcount < 0 then { c with rowcount := -1 } else c
      (.ok (), { c with rownumber := 0 }, s)

/-- Embedded `Cursor.executemany(operation, seq_of_parameters)`. -/
def Cursor.executemany (env : SessionEnv) (c : Cursor) (operation : String)
    (seq_of_parameters : List (List Int)) (s : SessionState) :
    Except PyError Unit × Cursor × SessionState :=
  match c._check_closed s with
  | .error e => (.error e, c, s)
  | .ok _ =>
    match c._statement_cache.get_prepared_statement env operation s with
    | (.error e, cache, s) => (.error e, { c with _statement_cache := cache }, s)
    | (.ok p_statement, cache, s) =>
      (.ok (), { c with _statement_cache := cache },
       execute_batch_prepared_statement p_statement seq_of_parameters s)

/-- Embedded `Cursor.fetchone()`: closed check, then no-result-set check, then
increment `rownumber` and delegate to the result set. -/
def Cursor.fetchone (c : Cursor) (s : SessionState) :
    Except PyError (Option Row) × Cursor × SessionState :=
  match c._check_closed s with
  | .error e => (.error e, c, s)
  | .ok _ =>
    match c._result_set with
    | none => (.error noResultsError, c, s)
    | some rs =>
      let c := { c with rownumber := c.rownumber + 1 }
      let (row, rs, s) := rs.fetchone s
      (.ok row, { c with _result_set := some rs }, s)

/-- The `while num_fetched_rows < size` loop of `fetchmany`, with `remaining`
the number of rows still allowed to be collected. -/
def Cursor.fetchmanyLoop (c : Cursor) (s : SessionState) (remaining : Nat)
    (acc : List Row) : Except PyError (List Row) × Cursor × SessionState :=
  match remaining with
  | 0 => (.ok acc, c, s)
  | n + 1 =>
    match c.fetchone s with
    | (.error e, c, s) => (.error e, c, s)
    | (.ok none, c, s) => (.ok acc, c, s)
    | (.ok (some row), c, s) => Cursor.fetchmanyLoop c s n (acc ++ [row])

/-- Embedded `Cursor.fetchmany(size=None)`: `size` defaults to `arraysize`. -/
def Cursor.fetchmany (c : Cursor) (size : Option Nat) (s : SessionState) :
    Except PyError (List Row) × Cursor × SessionState :=
  match c._check_closed s with
  | .error e => (.error e, c, s)
  | .ok _ =>
    let sz := match size with
              | none => c.arraysize
              | some n => n
    Cursor.fetchmanyLoop c s sz []

/-- Number of rows left in the held result set (0 when none is held);
the termination measure of the `fetchall` loop. -/
def Cursor.rsRemaining (c : Cursor) : Nat :=
  match c._result_set with
  | some rs => rs.rows.length
  | none => 0

/-- A successful `fetchone` that yields a row shrinks the held result set. -/
theorem fetchone_some_remaining {c c' : Cursor} {s s' : SessionState} {row : Row}
    (h : c.fetchone s = (.ok (some row), c', s')) :
    c'.rsRemaining < c.rsRemaining := by
  unfold Cursor.fetchone at h
  rcases hcc : c._check_closed s with e | u
  · rw [hcc] at h; simp at h
  · rw [hcc] at h
    rcases hrs : c._result_set with _ | rs
    · rw [hrs] at h; simp at h
    · rw [hrs] at h
      simp [ResultSet.fetchone] at h
      rcases hrows : rs.rows with _ | ⟨r, rest⟩
      · rw [hrows] at h; simp at h
      · rw [hrows] at h
        simp at h
        obtain ⟨-, hc', -⟩ := h
        subst hc'
        simp [Cursor.rsRemaining, hrs, hrows]

/-- The `while True` loop of `fetchall`: fetch until the no-more-rows
indicator. -/
def Cursor.fetchallLoop (c : Cursor) (s : SessionState) (acc : List Row) :
    Except PyError (List Row) × Cursor × SessionState :=
  match h : c.fetchone s with
  | (.error e, c', s') => (.error e, c', s')
  | (.ok none, c', s') => (.ok acc, c', s')
  | (.ok (some row), c', s') => Cursor.fetchallLoop c' s' (acc ++ [row])
termination_by c.rsRemaining
decreasing_by exact fetchone_some_remaining h

/-- Embedded `Cursor.fetchall()`. -/
def Cursor.fetchall (c : Cursor) (s : SessionState) :
    Except PyError (List Row) × Cursor × SessionState :=
  match c._check_closed s with
  | .error e => (.error e, c, s)
  | .ok _ => Cursor.fetchallLoop c s []

/-- Embedded `Cursor.close()`: closed check, cache shutdown, result-set release (in
that order in the source), then mark closed. -/
def Cursor.close (c : Cursor) (s : SessionState) :
    Except PyError Unit × Cursor × SessionState :=
  match c._check_closed s with
  | .error e => (.error e, c, s)
  | .ok _ =>
    let (cache, s) := c._statement_cache.shutdown s
    let c := { c with _statement_cache := cache }
    let s := match c._result_set with
             | some rs => rs.close s
             | none => s
    (.ok (), { c with closed := true }, s)

/-- Embedded `Cursor.callproc(procname, parameters=None)`: raises NotSupportedError
when either argument is supplied; a call with both absent is a silent no-op.
There is no closed-state check. -/
def Cursor.callproc (c : Cursor) (procname : Option String)
    (parameters : Option (List Int)) (s : SessionState) :
    Except PyError Unit × Cursor × SessionState :=
  if procname.isSome || parameters.isSome then
    (.error (.notSupportedError "Currently unsupported"), c, s)
  else (.ok (), c, s)

/-- Embedded `Cursor.nextset()`: always raises NotSupportedError (no closed check). -/
def Cursor.nextset (c : Cursor) (s : SessionState) :
    Except PyError Unit × Cursor × SessionState :=
  (.error (.notSupportedError "Currently unsupported"), c, s)

/-- Embedded `Cursor.setinputsizes(sizes)`: a no-op. -/
def Cursor.setinputsizes (c : Cursor) (sizes : List Nat) (s : SessionState) :
    Except PyError Unit × Cursor × SessionState :=
  (.ok (), c, s)

/-- Embedded `Cursor.setoutputsize(size, column=None)`: a no-op. -/
def Cursor.setoutputsize (c : Cursor) (size : Nat) (column : Option Nat)
    (s : SessionState) : Except PyError Unit × Cursor × SessionState :=
  (.ok (), c, s)

/-! ## Cache invariant (spec, section 3): bounded size, recency order in sync -/

/-- The StatementCache invariant claimed by the spec: the dict holds at most
`capacity` entries, its keys are unique, and the recency deque contains
exactly the dict's keys, each exactly once (stated as: the deque is a
permutation of the key list). -/
def cacheInv (c : StatementCache) : Prop :=
  c._ps_cache.length ≤ c._ps_cache_size ∧
  (keysOf c._ps_cache).Nodup ∧
  c._ps_key_queue.Perm (keysOf c._ps_cache)

/-- Cache states reachable from construction with a positive capacity by any
sequence of cache operations (`get_statement` performs no state change and is
included as the identity step). -/
inductive CacheReach (env : SessionEnv) : StatementCache → SessionState → Prop where
  | init (s : SessionState) (size : Nat) (hpos : 0 < size) :
      CacheReach env (StatementCache.init s size).1 (StatementCache.init s size).2
  | getStatementStep (c : StatementCache) (s : SessionState)
      (h : CacheReach env c s) : CacheReach env c s
  | getPreparedStep (c : StatementCache) (s : SessionState) (q : String)
      (h : CacheReach env c s) :
      CacheReach env (c.get_prepared_statement env q s).2.1
        (c.get_prepared_statement env q s).2.2
  | shutdownStep (c : StatementCache) (s : SessionState)
      (h : CacheReach env c s) :
      CacheReach env (c.shutdown s).1 (c.shutdown s).2

theorem keysOf_filter (d : List (String × PreparedStatement)) (p : String → Bool) :
    keysOf (d.filter (fun x => p x.1)) = (keysOf d).filter p := by
  induction d with
  | nil => rfl
  | cons x xs ih =>
    simp only [keysOf, List.map_cons, List.filter_cons] at *
    by_cases h : p x.1 <;> simp [h, ih]

theorem keysOf_dictDel (d : List (String × PreparedStatement)) (k : String) :
    keysOf (dictDel d k) = (keysOf d).filter (· != k) :=
  keysOf_filter d (fun x => !(x == k))

theorem dictGet_eq_none (d : List (String × PreparedStatement)) (k : String) :
    dictGet d k = none ↔ k ∉ keysOf d := by
  induction d with
  | nil => simp [dictGet, keysOf]
  | cons x xs ih =>
    by_cases h : x.1 = k
    · subst h
      simp [dictGet, keysOf, List.find?_cons_of_pos]
    · simp only [dictGet, keysOf, List.map_cons, List.mem_cons] at *
      rw [List.find?_cons_of_neg _ (by simp [h])]
      rw [ih]
      simp [Ne.symm h]

theorem dictGet_some_mem {d : List (String × PreparedStatement)} {k : String}
    {v : PreparedStatement} (h : dictGet d k = some v) : k ∈ keysOf d := by
  by_contra hk
  rw [← dictGet_eq_none] at hk
  rw [hk] at h
  cases h

/-- The eviction loop of `get_prepared_statement`, run on a well-formed cache
with positive capacity: it completes without exception, keeps keys unique and
the queue a permutation of the keys, leaves a cache strictly below capacity
that is a sub-dict of the input, and touches the session only by appending
`closeStatement` calls. -/
theorem evictLoop_spec (size : Nat) (hsize : 0 < size) :
    ∀ (queue : List String) (cache : List (String × PreparedStatement))
      (s : SessionState),
      (keysOf cache).Nodup → queue.Perm (keysOf cache) →
      ∃ cache' queue' s',
        evictLoop cache queue size s = (.ok (), cache', queue', s') ∧
        (keysOf cache').Nodup ∧ queue'.Perm (keysOf cache') ∧
        cache'.length < size ∧ cache'.Sublist cache ∧
        s'.closed = s.closed ∧ s'.nextHandle = s.nextHandle ∧
        ∃ closes, s'.trace = s.trace ++ closes ∧
          ∀ x ∈ closes, ∃ hh, x = SessionCall.closeStatement hh := by
  intro queue
  induction queue with
  | nil =>
    intro cache s hnd hperm
    have hkeys : keysOf cache = [] := hperm.symm.eq_nil
    have hcache : cache = [] := by
      cases cache with
      | nil => rfl
      | cons x xs => simp [keysOf] at hkeys
    subst hcache
    refine ⟨[], [], s, ?_, by simp [keysOf], by simp [keysOf], hsize, .refl _,
      rfl, rfl, [], by simp, by simp⟩
    unfold evictLoop
    simp [Nat.not_le.mpr hsize]
  | cons k rest ih =>
    intro cache s hnd hperm
    by_cases hb : size ≤ cache.length
    · have hkmem : k ∈ keysOf cache := hperm.mem_iff.mp (List.mem_cons_self k rest)
      obtain ⟨v, hv⟩ : ∃ v, dictGet cache k = some v := by
        cases hdg : dictGet cache k with
        | none => exact absurd hkmem ((dictGet_eq_none cache k).mp hdg)
        | some v => exact ⟨v, rfl⟩
      have hrec : evictLoop cache (k :: rest) size s =
          evictLoop (dictDel cache k) rest size (close_statement v.handle s) := by
        conv_lhs => unfold evictLoop
        simp [hb, hv]
      have hnd' : (keysOf (dictDel cache k)).Nodup := by
        rw [keysOf_dictDel]
        exact hnd.filter _
      have hperm' : rest.Perm (keysOf (dictDel cache k)) := by
        have h2 : ((k :: rest).erase k).Perm ((keysOf cache).erase k) := hperm.erase k
        rw [List.erase_cons_head] at h2
        rw [keysOf_dictDel, ← hnd.erase_eq_filter k]
        exact h2
      obtain ⟨cache', queue', s', heq, hnd'', hperm'', hlen, hsub, hcl, hnh,
        closes, htr, hcloses⟩ := ih (dictDel cache k) (close_statement v.handle s) hnd' hperm'
      refine ⟨cache', queue', s', by rw [hrec]; exact heq, hnd'', hperm'', hlen,
        hsub.trans (List.filter_sublist cache), ?_, ?_,
        SessionCall.closeStatement v.handle :: closes, ?_, ?_⟩
      · rw [hcl]; rfl
      · rw [hnh]; rfl
      · rw [htr]
        simp [close_statement, SessionState.record]
      · intro x hx
        rcases List.mem_cons.mp hx with rfl | hx'
        · exact ⟨v.handle, rfl⟩
        · exact hcloses x hx'
    · refine ⟨cache, k :: rest, s, ?_, hnd, hperm, Nat.lt_of_not_le hb, .refl _,
        rfl, rfl, [], by simp, by simp⟩
      unfold evictLoop
      simp [hb]

/-- Embedded `get_prepared_statement` preserves the cache invariant and the capacity. -/
theorem get_prepared_statement_preserves (env : SessionEnv) (c : StatementCache)
    (q : String) (s : SessionState) (hpos : 0 < c._ps_cache_size)
    (hinv : cacheInv c) :
    cacheInv (c.get_prepared_statement env q s).2.1 ∧
    (c.get_prepared_statement env q s).2.1._ps_cache_size = c._ps_cache_size := by
  obtain ⟨hlen, hnd, hperm⟩ := hinv
  unfold StatementCache.get_prepared_statement
  cases hdg : dictGet c._ps_cache q with
  | some st =>
    have hqmem : q ∈ c._ps_key_queue := hperm.mem_iff.mpr (dictGet_some_mem hdg)
    simp only [hqmem, if_pos]
    refine ⟨⟨hlen, hnd, ?_⟩, trivial⟩
    have p1 : (c._ps_key_queue.erase q ++ [q]).Perm (q :: c._ps_key_queue.erase q) :=
      List.perm_append_singleton q _
    have p2 : (q :: c._ps_key_queue.erase q).Perm c._ps_key_queue :=
      (List.perm_cons_erase hqmem).symm
    exact (p1.trans p2).trans hperm
  | none =>
    have hqnot : q ∉ keysOf c._ps_cache := (dictGet_eq_none _ _).mp hdg
    obtain ⟨cache', queue', s', heq, hnd', hperm', hlen', hsub, _, _, _⟩ :=
      evictLoop_spec c._ps_cache_size hpos c._ps_key_queue c._ps_cache
        (create_prepared_statement env q s).2 hnd hperm
    have hqnot' : q ∉ keysOf cache' := fun hmem => hqnot ((hsub.map Prod.fst).subset hmem)
    have hany : cache'.any (fun p => p.1 == q) = false := by
      rw [List.any_eq_false]
      intro p hp
      simp only [beq_iff_eq]
      intro hpq
      exact hqnot' (hpq ▸ List.mem_map_of_mem Prod.fst hp)
    have hins : ∀ v, dictInsert cache' q v = cache' ++ [(q, v)] := by
      intro v
      unfold dictInsert
      rw [hany]
      simp
    simp only [create_prepared_statement] at heq ⊢
    rw [heq]
    simp only [hins]
    refine ⟨⟨?_, ?_, ?_⟩, trivial⟩
    · simp only [List.length_append, List.length_singleton]
      omega
    · simp only [keysOf, List.map_append, List.map_cons, List.map_nil]
      rw [List.nodup_append]
      exact ⟨hnd', List.nodup_singleton q, by simpa [keysOf] using hqnot'⟩
    · simp only [keysOf, List.map_append, List.map_cons, List.map_nil]
      exact hperm'.append_right [q]

/-- Embedded `shutdown` trivially restores the invariant (both containers cleared). -/
theorem shutdown_preserves (c : StatementCache) (s : SessionState) :
    cacheInv (c.shutdown s).1 ∧
    (c.shutdown s).1._ps_cache_size = c._ps_cache_size := by
  unfold StatementCache.shutdown
  exact ⟨⟨by simp, by simp [keysOf], by simp [keysOf]⟩, rfl⟩

/-- Every reachable cache state satisfies the invariant and keeps its
positive capacity. -/
theorem cacheReach_wf (env : SessionEnv) (c : StatementCache) (s : SessionState)
    (h : CacheReach env c s) : cacheInv c ∧ 0 < c._ps_cache_size := by
  induction h with
  | init s size hpos =>
    refine ⟨⟨?_, ?_, ?_⟩, ?_⟩ <;>
      simp [StatementCache.init, create_statement, cacheInv, keysOf, hpos]
  | getStatementStep c s hc ih => exact ih
  | getPreparedStep c s q hc ih =>
    exact ⟨(get_prepared_statement_preserves env c q s ih.2 ih.1).1,
      (get_prepared_statement_preserves env c q s ih.2 ih.1).2 ▸ ih.2⟩
  | shutdownStep c s hc ih =>
    exact ⟨(shutdown_preserves c s).1, (shutdown_preserves c s).2 ▸ ih.2⟩

/-- A concrete session environment used to instantiate theorems. -/
def envW : SessionEnv :=
  { parameter_count := fun q => q.length
    exec_row_count := fun _ => 5
    exec_result := fun q => if q = "sel" then 1 else 0
    rs_rows := fun _ => [[1], [2], [3], [4], [5]]
    rs_description := fun _ => ["col"] }

/-- C1: for every StatementCache constructed with positive capacity, after any
sequence of cache operations (`get_statement`, `get_prepared_statement`,
`shutdown`) completes, the number of entries is at most the capacity, and the
recency-order deque contains exactly the keys of the entries dict, each
exactly once. -/
theorem C1_cache_invariant (env : SessionEnv) (c : StatementCache)
    (s : SessionState) (h : CacheReach env c s) : cacheInv c :=
  (cacheReach_wf env c s h).1

/-- C1 witness: the invariant holds at a concrete reachable state. -/
theorem C1_cache_invariant_witness :
    cacheInv (StatementCache.init freshSession 1).1 :=
  C1_cache_invariant envW (StatementCache.init freshSession 1).1
    (StatementCache.init freshSession 1).2
    (CacheReach.init freshSession 1 Nat.one_pos)

/-! ## C3: cache-hit behavior -/

/-- C3: a cache hit returns the stored handle, leaves the entries dict (hence
the cache size) unchanged, makes no session call (the session state is
returned untouched, so no new handle is requested), and moves the text to the
most-recently-used end of the recency deque. -/
theorem C3_cache_hit (env : SessionEnv) (c : StatementCache) (q : String)
    (st : PreparedStatement) (s : SessionState)
    (hget : dictGet c._ps_cache q = some st) (hq : q ∈ c._ps_key_queue) :
    c.get_prepared_statement env q s =
      (.ok st, { c with _ps_key_queue := c._ps_key_queue.erase q ++ [q] }, s) := by
  unfold StatementCache.get_prepared_statement
  rw [hget]
  simp [hq]

/-- A concrete two-entry cache used to instantiate theorems. -/
def cacheW : StatementCache :=
  { _statement := 0
    _ps_cache := [("a", { handle := 1, parameter_count := 1, text := "a" }),
                  ("b", { handle := 2, parameter_count := 1, text := "b" })]
    _ps_key_queue := ["a", "b"]
    _ps_cache_size := 2 }

/-- C3 witness: hitting `"a"` in the concrete cache moves it to the MRU end
and changes nothing else. -/
theorem C3_cache_hit_witness :
    cacheW.get_prepared_statement envW "a" freshSession =
      (.ok { handle := 1, parameter_count := 1, text := "a" },
       { cacheW with _ps_key_queue := cacheW._ps_key_queue.erase "a" ++ ["a"] },
       freshSession) :=
  C3_cache_hit envW cacheW "a" { handle := 1, parameter_count := 1, text := "a" }
    freshSession (by decide) (by decide)

/-! ## C4: parameter-count validation -/

/-- Trace entries that execute something on the session. -/
def isExecCall : SessionCall → Bool
  | .executeStatement _ _ => true
  | .executePreparedStatement _ _ => true
  | .executeBatchPreparedStatement _ _ => true
  | _ => false

/-- The eviction loop performs no execute call on the session. -/
theorem evictLoop_trace_no_exec (size : Nat) :
    ∀ (queue : List String) (cache : List (String × PreparedStatement))
      (s : SessionState),
      ((evictLoop cache queue size s).2.2.2.trace).filter isExecCall =
        s.trace.filter isExecCall := by
  intro queue
  induction queue with
  | nil =>
    intro cache s
    unfold evictLoop
    by_cases h : size ≤ cache.length <;> simp [h]
  | cons k rest ih =>
    intro cache s
    unfold evictLoop
    by_cases h : size ≤ cache.length
    · cases hdg : dictGet cache k with
      | none => simp [h, hdg]
      | some v =>
        simp only [h, hdg, if_true]
        rw [ih]
        simp [close_statement, SessionState.record, List.filter_append, isExecCall]
    · simp [h]

/-- Resolving a prepared statement performs no execute call on the session
(it may create and close statement handles, but never executes). -/
theorem get_prepared_statement_no_exec (env : SessionEnv) (c : StatementCache)
    (q : String) (s : SessionState) :
    ((c.get_prepared_statement env q s).2.2.trace).filter isExecCall =
      s.trace.filter isExecCall := by
  unfold StatementCache.get_prepared_statement
  cases hdg : dictGet c._ps_cache q with
  | some st => by_cases hq : q ∈ c._ps_key_queue <;> simp [hq]
  | none =>
    simp only [create_prepared_statement]
    have hev := evictLoop_trace_no_exec c._ps_cache_size c._ps_key_queue c._ps_cache
      { s with nextHandle := s.nextHandle + 1,
               trace := s.trace ++ [.createPreparedStatement q s.nextHandle] }
    rcases hres : evictLoop c._ps_cache c._ps_key_queue c._ps_cache_size
        { s with nextHandle := s.nextHandle + 1,
                 trace := s.trace ++ [.createPreparedStatement q s.nextHandle] }
      with ⟨r, cache', queue', s'⟩
    rw [hres] at hev
    simp only at hev
    cases r <;>
      simpa [List.filter_append, isExecCall] using hev

/-- C4: on an open cursor, `execute` with a parameter list whose length
differs from the resolved handle's declared `parameter_count` raises
ProgrammingError (the spec's ParameterCountError) whose message carries both
the expected and the actual count, and no execute call is issued to the
session for that invocation. -/
theorem C4_param_count_error (env : SessionEnv) (c : Cursor) (op : String)
    (params : List Int) (s : SessionState) (pst : PreparedStatement)
    (cache' : StatementCache) (s' : SessionState)
    (hopen : c.closed = false) (hsopen : s.closed = false)
    (hres : c._statement_cache.get_prepared_statement env op s = (.ok pst, cache', s'))
    (hcount : pst.parameter_count ≠ params.length) :
    c.execute env op (some params) s =
      (.error (.programmingError (paramCountMsg pst.parameter_count params.length)),
       { c._reset with __query := some op, _statement_cache := cache' }, s') ∧
    s'.trace.filter isExecCall = s.trace.filter isExecCall ∧
    (∃ pre mid, paramCountMsg pst.parameter_count params.length =
      pre ++ toString pst.parameter_count ++ mid ++ toString params.length) := by
  have hcc : c._check_closed s = .ok () := by
    unfold Cursor._check_closed
    simp [hopen, hsopen]
  refine ⟨?_, ?_, "Incorrect number of parameters specified, expected ", ", got ", rfl⟩
  · unfold Cursor.execute
    rw [hcc]
    simp only [Cursor._executeprepared]
    have : ({ c._reset with __query := some op } : Cursor)._statement_cache
        = c._statement_cache := rfl
    rw [this, hres]
    simp [hcount]
  · have := get_prepared_statement_no_exec env c._statement_cache op s
    rw [hres] at this
    exact this

/-- A freshly constructed cursor (capacity 2) over a fresh session. -/
def cursorW : Cursor := (Cursor.init freshSession 2).1

/-- The session state right after constructing `cursorW`. -/
def sessW : SessionState := (Cursor.init freshSession 2).2

/-- C4 witness: executing `"ab"` (declared parameter count 2 under `envW`)
with three parameters raises the counting ProgrammingError and issues no
execute call. -/
theorem C4_param_count_error_witness :
    cursorW.execute envW "ab" (some [1, 2, 3]) sessW =
      (.error (.programmingError (paramCountMsg 2 3)),
       { cursorW._reset with
         __query := some "ab",
         _statement_cache :=
           { _statement := 0,
             _ps_cache := [("ab", { handle := 1, parameter_count := 2, text := "ab" })],
             _ps_key_queue := ["ab"],
             _ps_cache_size := 2 } },
       { closed := false, nextHandle := 2,
         trace := [.createStatement 0, .createPreparedStatement "ab" 1] }) ∧
    ({ closed := false, nextHandle := 2,
       trace := [SessionCall.createStatement 0,
                 SessionCall.createPreparedStatement "ab" 1] } :
        SessionState).trace.filter isExecCall = sessW.trace.filter isExecCall ∧
    (∃ pre mid, paramCountMsg 2 3 = pre ++ toString 2 ++ mid ++ toString 3) := by
  have h := C4_param_count_error envW cursorW "ab" [1, 2, 3] sessW
    { handle := 1, parameter_count := 2, text := "ab" }
    { _statement := 0
      _ps_cache := [("ab", { handle := 1, parameter_count := 2, text := "ab" })]
      _ps_key_queue := ["ab"]
      _ps_cache_size := 2 }
    { closed := false, nextHandle := 2,
      trace := [.createStatement 0, .createPreparedStatement "ab" 1] }
    rfl rfl rfl (by decide)
  exact h

/-! ## C6: behavior after close (corrected) -/

/-- A concrete cursor that has been marked closed. -/
def closedCursorW : Cursor :=
  { _statement_cache := { _statement := 0, _ps_cache := [], _ps_key_queue := [],
                          _ps_cache_size := 2 }
    _result_set := none, closed := true, arraysize := 1, description := none
    rowcount := -1, colcount := -1, rownumber := 0, __query := none }

/-- C6 counterexample: on a closed cursor, `callproc(None, None)` completes
without raising anything — in particular it does not raise the
ClosedResourceError the claim requires of every non-no-op operation. -/
theorem C6_callproc_counterexample :
    closedCursorW.closed = true ∧
    (closedCursorW.callproc none none freshSession).1 = .ok () := by
  constructor <;> rfl

/-- C6 (amended): after close, `execute`, `executemany`, `fetchone`,
`fetchmany`, `fetchall` and a second `close` raise `Error "cursor is closed"`
before doing anything else (cursor and session unchanged) — in particular
close is not idempotent.  `callproc` and `nextset` do not check the closed
state: `callproc` with both arguments absent is a silent no-op and otherwise
raises NotSupportedError; `nextset` always raises NotSupportedError;
`setinputsizes` and `setoutputsize` remain no-ops. -/
theorem C6_closed_cursor_ops (env : SessionEnv) (c : Cursor) (s : SessionState)
    (hclosed : c.closed = true) :
    (∀ op params, c.execute env op params s = (.error cursorClosedError, c, s)) ∧
    (∀ op seq, c.executemany env op seq s = (.error cursorClosedError, c, s)) ∧
    c.fetchone s = (.error cursorClosedError, c, s) ∧
    (∀ sz, c.fetchmany sz s = (.error cursorClosedError, c, s)) ∧
    c.fetchall s = (.error cursorClosedError, c, s) ∧
    c.close s = (.error cursorClosedError, c, s) ∧
    c.callproc none none s = (.ok (), c, s) ∧
    (∀ pn par, (pn.isSome || par.isSome) = true →
      c.callproc pn par s = (.error (.notSupportedError "Currently unsupported"), c, s)) ∧
    c.nextset s = (.error (.notSupportedError "Currently unsupported"), c, s) ∧
    (∀ sizes, c.setinputsizes sizes s = (.ok (), c, s)) ∧
    (∀ sz col, c.setoutputsize sz col s = (.ok (), c, s)) := by
  have hcc : c._check_closed s = .error cursorClosedError := by
    unfold Cursor._check_closed
    simp [hclosed]
  refine ⟨fun op params => ?_, fun op seq => ?_, ?_, fun sz => ?_, ?_, ?_, ?_,
    fun pn par hsome => ?_, ?_, fun sizes => ?_, fun sz col => ?_⟩
  · unfold Cursor.execute; rw [hcc]
  · unfold Cursor.executemany; rw [hcc]
  · unfold Cursor.fetchone; rw [hcc]
  · unfold Cursor.fetchmany; rw [hcc]
  · unfold Cursor.fetchall; rw [hcc]
  · unfold Cursor.close; rw [hcc]
  · unfold Cursor.callproc; rfl
  · unfold Cursor.callproc; rw [if_pos hsome]
  · rfl
  · rfl
  · rfl

/-- C6 witness: the amended behavior at a concrete closed cursor. -/
theorem C6_closed_cursor_ops_witness :
    closedCursorW.fetchone freshSession =
      (.error cursorClosedError, closedCursorW, freshSession) ∧
    closedCursorW.close freshSession =
      (.error cursorClosedError, closedCursorW, freshSession) ∧
    closedCursorW.nextset freshSession =
      (.error (.notSupportedError "Currently unsupported"), closedCursorW, freshSession) :=
  ⟨(C6_closed_cursor_ops envW closedCursorW freshSession rfl).2.2.1,
   (C6_closed_cursor_ops envW closedCursorW freshSession rfl).2.2.2.2.2.1,
   (C6_closed_cursor_ops envW closedCursorW freshSession rfl).2.2.2.2.2.2.2.2.1⟩

/-! ## C7: fetchone -/

/-- C7: on an open cursor, `fetchone` with no open result set raises the
no-results Error; with an open result set it increments `rownumber` and
delegates to the result set, returning its next row or `none` when no rows
remain. -/
theorem C7_fetchone (c : Cursor) (s : SessionState)
    (hopen : c.closed = false) (hsopen : s.closed = false) :
    (c._result_set = none → c.fetchone s = (.error noResultsError, c, s)) ∧
    (∀ rs, c._result_set = some rs →
      c.fetchone s = (.ok rs.rows.head?,
        { c with
          rownumber := c.rownumber + 1,
          _result_set := some { rs with rows := rs.rows.tail } },
        s.record (.resultSetFetchRow rs.id))) := by
  have hcc : c._check_closed s = .ok () := by
    unfold Cursor._check_closed
    simp [hopen, hsopen]
  constructor
  · intro h
    unfold Cursor.fetchone
    rw [hcc, h]
  · intro rs h
    unfold Cursor.fetchone
    rw [hcc, h]
    simp [ResultSet.fetchone]

/-- A concrete open cursor holding a result set with two pending rows. -/
def cursorRsW : Cursor :=
  { cursorW with _result_set := some { id := 7, text := "sel", rows := [[1], [2]] } }

/-- C7 witness: `fetchone` with no result set errors; with the two-row result
set it yields the first row and bumps `rownumber`. -/
theorem C7_fetchone_witness :
    cursorW.fetchone sessW = (.error noResultsError, cursorW, sessW) ∧
    cursorRsW.fetchone sessW = (.ok (some [1]),
      { cursorRsW with
        rownumber := 1,
        _result_set := some { id := 7, text := "sel", rows := [[2]] } },
      sessW.record (.resultSetFetchRow 7)) := by
  constructor
  · exact (C7_fetchone cursorW sessW rfl rfl).1 rfl
  · have h := (C7_fetchone cursorRsW sessW rfl rfl).2
      { id := 7, text := "sel", rows := [[1], [2]] } rfl
    simpa using h

/-! ## Fetch-loop behavior (C8, C9) -/

/-- Embedded `fetchone` on an open cursor holding a result set: bump `rownumber`,
return the next pending row (or `none`), consume it. -/
theorem fetchone_spec (c : Cursor) (s : SessionState) (rs : ResultSet)
    (hopen : c.closed = false) (hsopen : s.closed = false)
    (hrs : c._result_set = some rs) :
    c.fetchone s = (.ok rs.rows.head?,
      { c with
        rownumber := c.rownumber + 1,
        _result_set := some { rs with rows := rs.rows.tail } },
      s.record (.resultSetFetchRow rs.id)) := by
  have hcc : c._check_closed s = .ok () := by
    unfold Cursor._check_closed
    simp [hopen, hsopen]
  unfold Cursor.fetchone
  rw [hcc, hrs]
  simp [ResultSet.fetchone]

/-- Embedded `fetchone` on an open cursor with no result set: the no-results Error. -/
theorem fetchone_noRs_spec (c : Cursor) (s : SessionState)
    (hopen : c.closed = false) (hsopen : s.closed = false)
    (hrs : c._result_set = none) :
    c.fetchone s = (.error noResultsError, c, s) := by
  have hcc : c._check_closed s = .ok () := by
    unfold Cursor._check_closed
    simp [hopen, hsopen]
  unfold Cursor.fetchone
  rw [hcc, hrs]

/-- Exact behavior of the `fetchmany` loop on an open cursor holding a result
set: it collects the first `n` pending rows (fewer if the set is exhausted
first), consumes `min n (pending + 1)` fetch calls (the extra one observes the
no-more-rows indicator), and advances `rownumber` by exactly that many. -/
theorem fetchmanyLoop_spec :
    ∀ (n : Nat) (c : Cursor) (s : SessionState) (rs : ResultSet) (acc : List Row),
      c.closed = false → s.closed = false → c._result_set = some rs →
      Cursor.fetchmanyLoop c s n acc =
        (.ok (acc ++ rs.rows.take n),
         { c with
           rownumber := c.rownumber + min n (rs.rows.length + 1),
           _result_set := some { rs with rows := rs.rows.drop n } },
         { s with trace := s.trace ++
             List.replicate (min n (rs.rows.length + 1)) (.resultSetFetchRow rs.id) }) := by
  intro n
  induction n with
  | zero =>
    intro c s rs acc hopen hsopen hrs
    rcases rs with ⟨rid, rtext, rrows⟩
    simp [Cursor.fetchmanyLoop, ← hrs]
  | succ n ih =>
    intro c s rs acc hopen hsopen hrs
    have hcc : c._check_closed s = .ok () := by
      unfold Cursor._check_closed
      simp [hopen, hsopen]
    rcases rs with ⟨rid, rtext, rrows⟩
    unfold Cursor.fetchmanyLoop Cursor.fetchone
    rw [hcc, hrs]
    cases hrows : rrows with
    | nil =>
      simp [ResultSet.fetchone, SessionState.record, ← hrs]
    | cons r rest =>
      simp only [ResultSet.fetchone, List.head?_cons, List.tail_cons]
      rw [ih { c with
               rownumber := c.rownumber + 1,
               _result_set := some { id := rid, text := rtext, rows := rest } }
            (s.record (.resultSetFetchRow rid))
            { id := rid, text := rtext, rows := rest } (acc ++ [r]) hopen hsopen rfl]
      simp only [SessionState.record, List.length_cons, List.take_succ_cons,
        List.drop_succ_cons, Nat.succ_min_succ, List.replicate_succ]
      refine congrArg₂ _ (by simp) (congrArg₂ _ ?_ ?_)
      · congr 1
        omega
      · congr 1
        simp

/-- Exact behavior of the `fetchall` loop on an open cursor holding a result
set: it collects every pending row, makes `pending + 1` fetch calls (the last
observes the indicator), and advances `rownumber` by `pending + 1`. -/
theorem fetchallLoop_spec :
    ∀ (rows : List Row) (c : Cursor) (s : SessionState) (rs : ResultSet) (acc : List Row),
      c.closed = false → s.closed = false → c._result_set = some rs →
      rs.rows = rows →
      Cursor.fetchallLoop c s acc =
        (.ok (acc ++ rows),
         { c with
           rownumber := c.rownumber + rows.length + 1,
           _result_set := some { rs with rows := [] } },
         { s with trace := s.trace ++
             List.replicate (rows.length + 1) (.resultSetFetchRow rs.id) }) := by
  intro rows
  induction rows with
  | nil =>
    intro c s rs acc hopen hsopen hrs hrows
    have hcc : c._check_closed s = .ok () := by
      unfold Cursor._check_closed
      simp [hopen, hsopen]
    rcases rs with ⟨rid, rtext, rrows⟩
    simp only at hrows
    subst hrows
    unfold Cursor.fetchallLoop Cursor.fetchone
    rw [hcc, hrs]
    simp [ResultSet.fetchone, SessionState.record]
  | cons r rest ih =>
    intro c s rs acc hopen hsopen hrs hrows
    have hcc : c._check_closed s = .ok () := by
      unfold Cursor._check_closed
      simp [hopen, hsopen]
    rcases rs with ⟨rid, rtext, rrows⟩
    simp only at hrows
    subst hrows
    unfold Cursor.fetchallLoop Cursor.fetchone
    rw [hcc, hrs]
    simp only [ResultSet.fetchone, List.head?_cons, List.tail_cons]
    rw [ih { c with
             rownumber := c.rownumber + 1,
             _result_set := some { id := rid, text := rtext, rows := rest } }
          (s.record (.resultSetFetchRow rid))
          { id := rid, text := rtext, rows := rest } (acc ++ [r]) hopen hsopen rfl rfl]
    simp only [List.length_cons, SessionState.record]
    refine congrArg₂ _ (by simp) (congrArg₂ _ ?_ ?_)
    · congr 1
      omega
    · congr 1
      rw [List.replicate_succ]
      simp [List.replicate_succ]

/-- Embedded `fetchmany (some n)` on an open cursor holding a result set: the first
`n` pending rows (all of them if fewer remain). -/
theorem fetchmany_spec (c : Cursor) (s : SessionState) (rs : ResultSet) (n : Nat)
    (hopen : c.closed = false) (hsopen : s.closed = false)
    (hrs : c._result_set = some rs) :
    c.fetchmany (some n) s =
      (.ok (rs.rows.take n),
       { c with
         rownumber := c.rownumber + min n (rs.rows.length + 1),
         _result_set := some { rs with rows := rs.rows.drop n } },
       { s with trace := s.trace ++
           List.replicate (min n (rs.rows.length + 1)) (.resultSetFetchRow rs.id) }) := by
  have hcc : c._check_closed s = .ok () := by
    unfold Cursor._check_closed
    simp [hopen, hsopen]
  unfold Cursor.fetchmany
  rw [hcc]
  simpa using fetchmanyLoop_spec n c s rs [] hopen hsopen hrs

/-- Embedded `fetchall` on an open cursor holding a result set: all pending rows, in
order. -/
theorem fetchall_spec (c : Cursor) (s : SessionState) (rs : ResultSet)
    (hopen : c.closed = false) (hsopen : s.closed = false)
    (hrs : c._result_set = some rs) :
    c.fetchall s =
      (.ok rs.rows,
       { c with
         rownumber := c.rownumber + rs.rows.length + 1,
         _result_set := some { rs with rows := [] } },
       { s with trace := s.trace ++
           List.replicate (rs.rows.length + 1) (.resultSetFetchRow rs.id) }) := by
  have hcc : c._check_closed s = .ok () := by
    unfold Cursor._check_closed
    simp [hopen, hsopen]
  unfold Cursor.fetchall
  rw [hcc]
  simpa using fetchallLoop_spec rs.rows c s rs [] hopen hsopen hrs rfl

/-- C8: on an open cursor over a result set with exactly 5 pending rows,
`fetchmany 3` returns the first 3 rows in order and a second `fetchmany 3`
returns the remaining 2; `fetchall` returns all 5 in order; `fetchmany` with
size absent uses `arraysize` as the bound; and in general the fetch loop
stops at the indicator or at the bound, returning the possibly empty
collected prefix. -/
theorem C8_fetch_batches (c : Cursor) (s : SessionState) (rs : ResultSet)
    (hopen : c.closed = false) (hsopen : s.closed = false)
    (hrs : c._result_set = some rs) (h5 : rs.rows.length = 5) :
    (c.fetchmany (some 3) s).1 = .ok (rs.rows.take 3) ∧
    (rs.rows.take 3).length = 3 ∧
    ((c.fetchmany (some 3) s).2.1.fetchmany (some 3) (c.fetchmany (some 3) s).2.2).1
      = .ok (rs.rows.drop 3) ∧
    (rs.rows.drop 3).length = 2 ∧
    (c.fetchall s).1 = .ok rs.rows ∧
    c.fetchmany none s = c.fetchmany (some c.arraysize) s ∧
    (∀ m, (c.fetchmany (some m) s).1 = .ok (rs.rows.take m)) := by
  have h1 := fetchmany_spec c s rs 3 hopen hsopen hrs
  refine ⟨by rw [h1], by rw [List.length_take]; omega, ?_, by rw [List.length_drop]; omega,
    ?_, ?_, fun m => by rw [fetchmany_spec c s rs m hopen hsopen hrs]⟩
  · rw [h1]
    have h2 := fetchmany_spec
      { c with
        rownumber := c.rownumber + min 3 (rs.rows.length + 1),
        _result_set := some { rs with rows := rs.rows.drop 3 } }
      { s with trace := s.trace ++
          List.replicate (min 3 (rs.rows.length + 1)) (.resultSetFetchRow rs.id) }
      { rs with rows := rs.rows.drop 3 } 3 hopen hsopen rfl
    rw [h2]
    simp only
    congr 1
    apply List.take_of_length_le
    rw [List.length_drop]
    omega
  · rw [fetchall_spec c s rs hopen hsopen hrs]
  · have hcc : c._check_closed s = .ok () := by
      unfold Cursor._check_closed
      simp [hopen, hsopen]
    unfold Cursor.fetchmany
    rw [hcc]

/-- A concrete open cursor holding a five-row result set, `rownumber = 0`. -/
def cursorRs5W : Cursor :=
  { cursorW with
    _result_set := some { id := 9, text := "sel", rows := [[1], [2], [3], [4], [5]] } }

/-- C8 witness: the batched fetches on the concrete five-row cursor. -/
theorem C8_fetch_batches_witness :
    (cursorRs5W.fetchmany (some 3) sessW).1 = .ok [[1], [2], [3]] ∧
    ((cursorRs5W.fetchmany (some 3) sessW).2.1.fetchmany (some 3)
      (cursorRs5W.fetchmany (some 3) sessW).2.2).1 = .ok [[4], [5]] ∧
    (cursorRs5W.fetchall sessW).1 = .ok [[1], [2], [3], [4], [5]] := by
  have h := C8_fetch_batches cursorRs5W sessW
    { id := 9, text := "sel", rows := [[1], [2], [3], [4], [5]] } rfl rfl rfl rfl
  exact ⟨h.1, h.2.2.1, h.2.2.2.2.1⟩

/-- C9: on an open cursor whose result set is exhausted, `fetchone` still
increments `rownumber` before returning the absent-row indicator; after a
`fetchall` started at `rownumber = 0` that returns `n` rows, `rownumber`
equals `n + 1`, and one further `fetchone` raises it to `n + 2`. -/
theorem C9_rownumber_overshoot (c : Cursor) (s : SessionState) (rs : ResultSet)
    (hopen : c.closed = false) (hsopen : s.closed = false)
    (hrs : c._result_set = some rs) :
    (rs.rows = [] → c.fetchone s =
      (.ok none,
       { c with rownumber := c.rownumber + 1, _result_set := some rs },
       s.record (.resultSetFetchRow rs.id))) ∧
    (c.rownumber = 0 →
      (c.fetchall s).1 = .ok rs.rows ∧
      (c.fetchall s).2.1.rownumber = rs.rows.length + 1 ∧
      ((c.fetchall s).2.1.fetchone (c.fetchall s).2.2).2.1.rownumber
        = rs.rows.length + 2) := by
  constructor
  · intro hempty
    have h := fetchone_spec c s rs hopen hsopen hrs
    rcases rs with ⟨rid, rtext, rrows⟩
    simp only at hempty
    subst hempty
    simpa using h
  · intro hzero
    have hall := fetchall_spec c s rs hopen hsopen hrs
    rw [hall]
    refine ⟨rfl, by simp [hzero], ?_⟩
    have hone := fetchone_spec
      { c with
        rownumber := c.rownumber + rs.rows.length + 1,
        _result_set := some { rs with rows := [] } }
      { s with trace := s.trace ++
          List.replicate (rs.rows.length + 1) (.resultSetFetchRow rs.id) }
      { rs with rows := [] } hopen hsopen rfl
    rw [hone]
    simp [hzero]

/-- A concrete open cursor holding an exhausted result set. -/
def cursorRs0W : Cursor :=
  { cursorW with _result_set := some { id := 4, text := "sel", rows := [] } }

/-- C9 witness: the exhausted-fetch increment and the `n + 1` count on the
concrete cursors. -/
theorem C9_rownumber_overshoot_witness :
    cursorRs0W.fetchone sessW =
      (.ok none,
       { cursorRs0W with
         rownumber := 1,
         _result_set := some { id := 4, text := "sel", rows := [] } },
       sessW.record (.resultSetFetchRow 4)) ∧
    (cursorRs5W.fetchall sessW).2.1.rownumber = 6 := by
  constructor
  · have h := (C9_rownumber_overshoot cursorRs0W sessW
      { id := 4, text := "sel", rows := [] } rfl rfl rfl).1 rfl
    simpa using h
  · have h := (C9_rownumber_overshoot cursorRs5W sessW
      { id := 9, text := "sel", rows := [[1], [2], [3], [4], [5]] } rfl rfl rfl).2 rfl
    exact h.2.1

/-! ## C5: ordering of session-level closes inside `Cursor.close` (corrected) -/

/-- Folding `close_statement` over the cache entries just appends one
`closeStatement` call per entry, in dict order. -/
theorem foldl_close_state :
    ∀ (l : List (String × PreparedStatement)) (s : SessionState),
      l.foldl (fun acc p => close_statement p.2.handle acc) s =
        { s with trace := s.trace ++ l.map (fun p => .closeStatement p.2.handle) } := by
  intro l
  induction l with
  | nil => intro s; simp
  | cons x xs ih =>
    intro s
    rw [List.foldl_cons, ih]
    simp [close_statement, SessionState.record]

/-- Embedded `shutdown` leaves the session flags alone and appends exactly the scratch
close followed by one close per cached entry, in dict order. -/
theorem shutdown_state (c : StatementCache) (s : SessionState) :
    (c.shutdown s).2 =
      { s with trace := s.trace ++ [.closeStatement c._statement]
          ++ c._ps_cache.map (fun p => .closeStatement p.2.handle) } := by
  unfold StatementCache.shutdown
  simp only
  rw [foldl_close_state]
  simp [close_statement, SessionState.record]

/-- Is a trace entry the session-level close of a result set? -/
def isRsClose : SessionCall → Bool
  | .resultSetClose _ => true
  | _ => false

/-- Is a trace entry the session-level close of a statement handle? -/
def isStmtClose : SessionCall → Bool
  | .closeStatement _ => true
  | _ => false

/-- The ordering property C5 asserts of the trace left by `Cursor.close`:
every result-set close precedes every statement-handle close. -/
def rsClosePrecedesStmtCloses (t : List SessionCall) : Prop :=
  ∀ i j, (hi : i < t.length) → (hj : j < t.length) →
    isRsClose (t.get ⟨i, hi⟩) = true → isStmtClose (t.get ⟨j, hj⟩) = true → i < j

/-- C5 counterexample: closing the concrete cursor that holds a result set
puts the scratch-statement close (position 1) *before* the result-set close
(position 2) in the session trace, so the result-set close does not precede
every statement-handle close as the claim requires. -/
theorem C5_close_order_counterexample :
    (cursorRsW.close sessW).2.2.trace =
      [.createStatement 0, .closeStatement 0, .resultSetClose 7] ∧
    ¬ rsClosePrecedesStmtCloses (cursorRsW.close sessW).2.2.trace := by
  refine ⟨rfl, fun h => ?_⟩
  have h21 := h 2 1 (by decide) (by decide) (by decide) (by decide)
  omega

/-- C5 (amended): on an open cursor holding a result set, `close()` first
shuts down the statement cache — closing the scratch handle and then every
cached handle through the session — then releases the result set through the
session, and only then marks the cursor closed; so in the trace every
statement-handle close precedes the result-set close, which comes last. -/
theorem C5_close_order (c : Cursor) (s : SessionState) (rs : ResultSet)
    (hopen : c.closed = false) (hsopen : s.closed = false)
    (hrs : c._result_set = some rs) :
    c.close s =
      (.ok (),
       { c with _statement_cache := (c._statement_cache.shutdown s).1, closed := true },
       { s with trace := s.trace
           ++ ([.closeStatement c._statement_cache._statement]
               ++ c._statement_cache._ps_cache.map (fun p => .closeStatement p.2.handle))
           ++ [.resultSetClose rs.id] }) := by
  have hcc : c._check_closed s = .ok () := by
    unfold Cursor._check_closed
    simp [hopen, hsopen]
  unfold Cursor.close
  rw [hcc]
  simp only [hrs]
  rw [show (c._statement_cache.shutdown s) =
      ((c._statement_cache.shutdown s).1, (c._statement_cache.shutdown s).2) from rfl]
  simp only [hrs]
  rw [shutdown_state]
  simp [ResultSet.close, SessionState.record, List.append_assoc]

/-- C5 witness: the amended close ordering on the concrete cursor. -/
theorem C5_close_order_witness :
    cursorRsW.close sessW =
      (.ok (),
       { cursorRsW with
         _statement_cache := (cursorRsW._statement_cache.shutdown sessW).1,
         closed := true },
       { sessW with trace := sessW.trace
           ++ ([.closeStatement cursorRsW._statement_cache._statement]
               ++ cursorRsW._statement_cache._ps_cache.map
                    (fun p => .closeStatement p.2.handle))
           ++ [.resultSetClose 7] }) :=
  C5_close_order cursorRsW sessW { id := 7, text := "sel", rows := [[1], [2]] }
    rfl rfl rfl

/-! ## C2: LRU eviction after C+1 distinct inserts -/

/-- Driver: call `get_prepared_statement` once per query text, in order,
threading the state (returned handles are discarded; every call on this
claim's path succeeds). -/
def runGetPrepared (env : SessionEnv) (qs : List String) (c : StatementCache)
    (s : SessionState) : StatementCache × SessionState :=
  match qs with
  | [] => (c, s)
  | q :: rest =>
    let r := c.get_prepared_statement env q s
    runGetPrepared env rest r.2.1 r.2.2

/-- The dict contents produced by inserting fresh query texts in order, with
handles allocated sequentially from `n`. -/
def expectedEntries (env : SessionEnv) (n : Nat) :
    List String → List (String × PreparedStatement)
  | [] => []
  | q :: rest =>
    (q, { handle := n, parameter_count := env.parameter_count q, text := q })
      :: expectedEntries env (n + 1) rest

/-- The session calls recorded while inserting fresh query texts in order. -/
def expectedCreates (n : Nat) : List String → List SessionCall
  | [] => []
  | q :: rest => .createPreparedStatement q n :: expectedCreates (n + 1) rest

theorem keysOf_expectedEntries (env : SessionEnv) :
    ∀ (qs : List String) (n : Nat), keysOf (expectedEntries env n qs) = qs := by
  intro qs
  induction qs with
  | nil => intro n; rfl
  | cons q rest ih => intro n; simp [expectedEntries, keysOf] at *; exact ih (n + 1)

theorem length_expectedEntries (env : SessionEnv) (qs : List String) (n : Nat) :
    (expectedEntries env n qs).length = qs.length := by
  have := congrArg List.length (keysOf_expectedEntries env qs n)
  simpa [keysOf] using this

theorem expectedEntries_snoc (env : SessionEnv) :
    ∀ (qs : List String) (n : Nat) (q : String),
      expectedEntries env n (qs ++ [q]) =
        expectedEntries env n qs ++
          [(q, { handle := n + qs.length, parameter_count := env.parameter_count q,
                 text := q })] := by
  intro qs
  induction qs with
  | nil => intro n q; simp [expectedEntries]
  | cons x rest ih =>
    intro n q
    simp only [List.cons_append, expectedEntries, List.length_cons, List.append_eq]
    rw [ih (n + 1) q]
    rw [show n + 1 + rest.length = n + (rest.length + 1) from by omega]

theorem expectedCreates_snoc :
    ∀ (qs : List String) (n : Nat) (q : String),
      expectedCreates n (qs ++ [q]) =
        expectedCreates n qs ++ [.createPreparedStatement q (n + qs.length)] := by
  intro qs
  induction qs with
  | nil => intro n q; simp [expectedCreates]
  | cons x rest ih =>
    intro n q
    simp only [List.cons_append, expectedCreates, List.length_cons, List.append_eq]
    rw [ih (n + 1) q]
    rw [show n + 1 + rest.length = n + (rest.length + 1) from by omega]

theorem count_expectedCreates_closeStatement (h : Nat) :
    ∀ (qs : List String) (n : Nat),
      (expectedCreates n qs).count (SessionCall.closeStatement h) = 0 := by
  intro qs
  induction qs with
  | nil => intro n; rfl
  | cons q rest ih =>
    intro n
    rw [expectedCreates, List.count_cons]
    simp [ih (n + 1)]

/-- The eviction loop is a no-op below capacity. -/
theorem evictLoop_exit (cache : List (String × PreparedStatement))
    (queue : List String) (size : Nat) (s : SessionState)
    (h : ¬ size ≤ cache.length) :
    evictLoop cache queue size s = (.ok (), cache, queue, s) := by
  cases queue <;> (unfold evictLoop; simp [h])

/-- Embedded `d[k] = v` appends when `k` is absent. -/
theorem dictInsert_append (d : List (String × PreparedStatement)) (k : String)
    (v : PreparedStatement) (h : k ∉ keysOf d) : dictInsert d k v = d ++ [(k, v)] := by
  unfold dictInsert
  have hany : d.any (fun p => p.1 == k) = false := by
    rw [List.any_eq_false]
    intro p hp
    simp only [beq_iff_eq]
    intro hpk
    exact h (hpk ▸ List.mem_map_of_mem Prod.fst hp)
  rw [hany]
  simp

theorem dictGet_cons_self (k : String) (v : PreparedStatement)
    (d : List (String × PreparedStatement)) : dictGet ((k, v) :: d) k = some v := by
  simp [dictGet, List.find?_cons_of_pos]

theorem dictDel_cons_self (k : String) (v : PreparedStatement)
    (d : List (String × PreparedStatement)) (h : k ∉ keysOf d) :
    dictDel ((k, v) :: d) k = d := by
  unfold dictDel
  rw [List.filter_cons]
  simp only [beq_self_eq_true, Bool.not_true, Bool.false_eq_true, if_false]
  apply List.filter_eq_self.mpr
  intro p hp
  simp only [Bool.not_eq_eq_eq_not, Bool.not_true, beq_eq_false_iff_ne, ne_eq]
  intro hpk
  exact h (hpk ▸ List.mem_map_of_mem Prod.fst hp)

/-- A fresh miss below capacity: create the handle, no eviction, insert the
new entry at the most-recently-used end. -/
theorem gps_miss_no_evict (env : SessionEnv) (c : StatementCache) (q : String)
    (s : SessionState) (hget : dictGet c._ps_cache q = none)
    (hlt : c._ps_cache.length < c._ps_cache_size) :
    c.get_prepared_statement env q s =
      (.ok { handle := s.nextHandle, parameter_count := env.parameter_count q,
             text := q },
       { c with
         _ps_cache := c._ps_cache ++
           [(q, { handle := s.nextHandle,
                  parameter_count := env.parameter_count q, text := q })],
         _ps_key_queue := c._ps_key_queue ++ [q] },
       { s with nextHandle := s.nextHandle + 1,
                trace := s.trace ++ [.createPreparedStatement q s.nextHandle] }) := by
  have hqnot : q ∉ keysOf c._ps_cache := (dictGet_eq_none _ _).mp hget
  unfold StatementCache.get_prepared_statement
  rw [hget]
  simp only [create_prepared_statement]
  rw [evictLoop_exit _ _ _ _ (Nat.not_le.mpr hlt)]
  simp only
  rw [dictInsert_append _ _ _ hqnot]

/-- A fresh miss at exactly full capacity with the LRU key `k₀` at the head
of the queue: create the handle, evict exactly `k₀` (closing its handle),
insert the new entry at the most-recently-used end. -/
theorem gps_miss_evict_one (env : SessionEnv) (c : StatementCache)
    (q k₀ : String) (v₀ : PreparedStatement) (qtail : List String)
    (s : SessionState)
    (hget : dictGet c._ps_cache q = none)
    (hqueue : c._ps_key_queue = k₀ :: qtail)
    (hv₀ : dictGet c._ps_cache k₀ = some v₀)
    (hfull : c._ps_cache_size ≤ c._ps_cache.length)
    (hdellen : (dictDel c._ps_cache k₀).length < c._ps_cache_size) :
    c.get_prepared_statement env q s =
      (.ok { handle := s.nextHandle, parameter_count := env.parameter_count q,
             text := q },
       { c with
         _ps_cache := dictDel c._ps_cache k₀ ++
           [(q, { handle := s.nextHandle,
                  parameter_count := env.parameter_count q, text := q })],
         _ps_key_queue := qtail ++ [q] },
       { s with nextHandle := s.nextHandle + 1,
                trace := s.trace ++ [.createPreparedStatement q s.nextHandle,
                                     .closeStatement v₀.handle] }) := by
  have hqnot : q ∉ keysOf c._ps_cache := (dictGet_eq_none _ _).mp hget
  have hqnot' : q ∉ keysOf (dictDel c._ps_cache k₀) := by
    rw [keysOf_dictDel]
    intro hmem
    exact hqnot (List.mem_of_mem_filter hmem)
  unfold StatementCache.get_prepared_statement
  rw [hget]
  simp only [create_prepared_statement, hqueue]
  have hstep : ∀ s₁ : SessionState,
      evictLoop c._ps_cache (k₀ :: qtail) c._ps_cache_size s₁ =
        (.ok (), dictDel c._ps_cache k₀, qtail, close_statement v₀.handle s₁) := by
    intro s₁
    conv_lhs => unfold evictLoop
    simp only [hfull, if_true, hv₀]
    rw [evictLoop_exit _ _ _ _ (Nat.not_le.mpr hdellen)]
  rw [hstep]
  simp only
  rw [dictInsert_append _ _ _ hqnot']
  simp [close_statement, SessionState.record, List.append_assoc]

/-- Filling a cache that already holds the fresh entries for `pre` with
further fresh distinct queries `rest`, while total size stays within
capacity: every call is a miss, no eviction happens, entries and recency
order extend in insertion order, handles sequentially. -/
theorem runGetPrepared_fill (env : SessionEnv) (C scratch : Nat) (cl : Bool) :
    ∀ (rest pre : List String) (n₀ : Nat) (t : List SessionCall),
      (pre ++ rest).Nodup → (pre ++ rest).length ≤ C →
      runGetPrepared env rest
        { _statement := scratch, _ps_cache := expectedEntries env n₀ pre,
          _ps_key_queue := pre, _ps_cache_size := C }
        { closed := cl, nextHandle := n₀ + pre.length, trace := t } =
      ({ _statement := scratch, _ps_cache := expectedEntries env n₀ (pre ++ rest),
         _ps_key_queue := pre ++ rest, _ps_cache_size := C },
       { closed := cl, nextHandle := n₀ + pre.length + rest.length,
         trace := t ++ expectedCreates (n₀ + pre.length) rest }) := by
  intro rest
  induction rest with
  | nil =>
    intro pre n₀ t hnd hlen
    simp [runGetPrepared, expectedCreates]
  | cons q rest ih =>
    intro pre n₀ t hnd hlen
    have hqpre : q ∉ pre := by
      intro hq
      rcases List.nodup_append.mp hnd with ⟨-, -, hdisj⟩
      exact hdisj hq (List.mem_cons_self q rest)
    have hget : dictGet (expectedEntries env n₀ pre) q = none := by
      rw [dictGet_eq_none, keysOf_expectedEntries]
      exact hqpre
    have hlt : (expectedEntries env n₀ pre).length < C := by
      rw [length_expectedEntries]
      rw [List.length_append, List.length_cons] at hlen
      omega
    rw [runGetPrepared]
    rw [gps_miss_no_evict env _ q _ hget hlt]
    simp only
    have harr : expectedEntries env n₀ pre ++
        [(q, { handle := n₀ + pre.length,
               parameter_count := env.parameter_count q, text := q })] =
        expectedEntries env n₀ (pre ++ [q]) := (expectedEntries_snoc env pre n₀ q).symm
    rw [harr]
    have := ih (pre ++ [q]) n₀ (t ++ [.createPreparedStatement q (n₀ + pre.length)])
      (by simpa using hnd) (by simpa using hlen)
    rw [show n₀ + pre.length + 1 = n₀ + (pre ++ [q]).length from by
      simp only [List.length_append, List.length_cons, List.length_nil]
      omega]
    rw [this]
    rw [Prod.mk.injEq]
    constructor
    · congr 1 <;> rw [List.append_assoc, List.singleton_append]
    · congr 1
      · simp only [List.length_append, List.length_cons, List.length_nil]
        omega
      · rw [expectedCreates]
        simp only [List.length_append, List.length_cons, List.length_nil]
        rw [show n₀ + (pre.length + (0 + 1)) = n₀ + pre.length + 1 from by omega]
        rw [List.append_assoc, List.singleton_append]

theorem runGetPrepared_append (env : SessionEnv) :
    ∀ (xs ys : List String) (c : StatementCache) (s : SessionState),
      runGetPrepared env (xs ++ ys) c s =
        runGetPrepared env ys (runGetPrepared env xs c s).1
          (runGetPrepared env xs c s).2 := by
  intro xs
  induction xs with
  | nil => intro ys c s; rfl
  | cons x rest ih =>
    intro ys c s
    rw [List.cons_append]
    rw [runGetPrepared]
    rw [ih]
    rfl

/-- C2: for every capacity `C ≥ 1`, after a freshly constructed cache takes
`get_prepared_statement` misses on `C + 1` distinct query texts in order, the
cache holds exactly `C` entries; the first (least-recently-used) text has
been removed and its prepared handle (id 1, the first one created) closed
through the session exactly once; eviction removed exactly that entry before
the new entry was appended at the most-recently-used end of the recency
order. -/
theorem C2_lru_eviction (env : SessionEnv) (C : Nat) (hC : 1 ≤ C)
    (q₀ qlast : String) (qmid : List String)
    (hlen : (q₀ :: qmid).length = C)
    (hnd : ((q₀ :: qmid) ++ [qlast]).Nodup) :
    runGetPrepared env ((q₀ :: qmid) ++ [qlast])
        (StatementCache.init freshSession C).1 (StatementCache.init freshSession C).2 =
      ({ _statement := 0,
         _ps_cache := expectedEntries env 2 (qmid ++ [qlast]),
         _ps_key_queue := qmid ++ [qlast],
         _ps_cache_size := C },
       { closed := false, nextHandle := 1 + C + 1,
         trace := [SessionCall.createStatement 0] ++ expectedCreates 1 (q₀ :: qmid)
           ++ [SessionCall.createPreparedStatement qlast (1 + C),
               SessionCall.closeStatement 1] }) ∧
    (expectedEntries env 2 (qmid ++ [qlast])).length = C ∧
    dictGet (expectedEntries env 2 (qmid ++ [qlast])) q₀ = none ∧
    ([SessionCall.createStatement 0] ++ expectedCreates 1 (q₀ :: qmid)
       ++ [SessionCall.createPreparedStatement qlast (1 + C),
           SessionCall.closeStatement 1]).count (SessionCall.closeStatement 1) = 1 := by
  have hnd₁ : (q₀ :: qmid).Nodup := hnd.of_append_left
  have hq₀mid : q₀ ∉ qmid := (List.nodup_cons.mp hnd₁).1
  have hlast : qlast ∉ q₀ :: qmid := by
    intro hmem
    rcases List.nodup_append.mp hnd with ⟨-, -, hdisj⟩
    exact hdisj hmem (List.mem_singleton_self qlast)
  have hmidlen : qmid.length + 1 = C := by simpa using hlen
  -- Step 1: fill the cache with the first C texts (all misses, no eviction).
  have hfill := runGetPrepared_fill env C 0 false (q₀ :: qmid) [] 1
    [SessionCall.createStatement 0] (by simpa using hnd₁) (by simp [hlen])
  rw [show expectedEntries env 1 ([] : List String) = [] from rfl] at hfill
  simp only [List.nil_append, List.length_nil, Nat.add_zero] at hfill
  -- Step 2: the final text is a miss at full capacity and evicts exactly q₀.
  have hv₀ : dictGet (expectedEntries env 1 (q₀ :: qmid)) q₀ =
      some { handle := 1, parameter_count := env.parameter_count q₀, text := q₀ } := by
    rw [show expectedEntries env 1 (q₀ :: qmid) =
        (q₀, { handle := 1, parameter_count := env.parameter_count q₀, text := q₀ })
          :: expectedEntries env 2 qmid from rfl]
    exact dictGet_cons_self _ _ _
  have hdel : dictDel (expectedEntries env 1 (q₀ :: qmid)) q₀ =
      expectedEntries env 2 qmid := by
    rw [show expectedEntries env 1 (q₀ :: qmid) =
        (q₀, { handle := 1, parameter_count := env.parameter_count q₀, text := q₀ })
          :: expectedEntries env 2 qmid from rfl]
    apply dictDel_cons_self
    rw [keysOf_expectedEntries]
    exact hq₀mid
  have hevict := gps_miss_evict_one env
    { _statement := 0, _ps_cache := expectedEntries env 1 (q₀ :: qmid),
      _ps_key_queue := q₀ :: qmid, _ps_cache_size := C }
    qlast q₀ { handle := 1, parameter_count := env.parameter_count q₀, text := q₀ }
    qmid
    { closed := false, nextHandle := 1 + (q₀ :: qmid).length,
      trace := [SessionCall.createStatement 0] ++ expectedCreates 1 (q₀ :: qmid) }
    (by rw [dictGet_eq_none, keysOf_expectedEntries]; exact hlast)
    rfl hv₀
    (by rw [length_expectedEntries]; simp [hlen])
    (by rw [hdel, length_expectedEntries]; show qmid.length < C; omega)
  rw [hdel] at hevict
  simp only at hevict
  -- Assemble the run.
  have hsplit := runGetPrepared_append env (q₀ :: qmid) [qlast]
    (StatementCache.init freshSession C).1 (StatementCache.init freshSession C).2
  have hinit1 : (StatementCache.init freshSession C).1 =
      { _statement := 0, _ps_cache := [], _ps_key_queue := [], _ps_cache_size := C } := rfl
  have hinit2 : (StatementCache.init freshSession C).2 =
      { closed := false, nextHandle := 1,
        trace := [SessionCall.createStatement 0] } := rfl
  rw [hinit1, hinit2] at hsplit
  rw [hinit1, hinit2, hsplit, hfill]
  rw [runGetPrepared]
  simp only
  rw [hevict]
  simp only [runGetPrepared]
  refine ⟨?_, ?_, ?_, ?_⟩
  · rw [Prod.mk.injEq]
    constructor
    · rw [expectedEntries_snoc env qmid 2 qlast]
      rw [show (2 : Nat) + qmid.length = 1 + (q₀ :: qmid).length from by
        simp only [List.length_cons]
        omega]
    · rw [show 1 + (q₀ :: qmid).length = 1 + C from by rw [hlen]]
  · rw [length_expectedEntries]
    simp only [List.length_append, List.length_cons, List.length_nil]
    omega
  · rw [dictGet_eq_none, keysOf_expectedEntries]
    intro hmem
    rcases List.mem_append.mp hmem with h | h
    · exact hq₀mid h
    · rcases List.mem_singleton.mp h with rfl
      exact hlast (List.mem_cons_self _ _)
  · simp only [List.count_append, List.count_singleton, List.count_cons,
      List.count_nil, count_expectedCreates_closeStatement]
    simp [beq_iff_eq]

/-- C2 witness: capacity 1, texts `"a"` then `"b"`: `"a"` is evicted and its
handle (id 1) closed exactly once. -/
theorem C2_lru_eviction_witness :
    runGetPrepared envW (("a" :: []) ++ ["b"])
        (StatementCache.init freshSession 1).1 (StatementCache.init freshSession 1).2 =
      ({ _statement := 0,
         _ps_cache := expectedEntries envW 2 ([] ++ ["b"]),
         _ps_key_queue := [] ++ ["b"],
         _ps_cache_size := 1 },
       { closed := false, nextHandle := 1 + 1 + 1,
         trace := [SessionCall.createStatement 0] ++ expectedCreates 1 ("a" :: [])
           ++ [SessionCall.createPreparedStatement "b" (1 + 1),
               SessionCall.closeStatement 1] }) ∧
    (expectedEntries envW 2 ([] ++ ["b"])).length = 1 ∧
    dictGet (expectedEntries envW 2 ([] ++ ["b"])) "a" = none ∧
    ([SessionCall.createStatement 0] ++ expectedCreates 1 ("a" :: [])
       ++ [SessionCall.createPreparedStatement "b" (1 + 1),
           SessionCall.closeStatement 1]).count (SessionCall.closeStatement 1) = 1 :=
  C2_lru_eviction envW 1 (by decide) "a" "b" [] rfl (by decide)

/-! ## C10: execute discards the held result set without closing it -/

/-- Generic trace footprint of the eviction loop: it appends only
`closeStatement` calls, so any predicate false on those is preserved under
`filter`. -/
theorem evictLoop_trace_filter (p : SessionCall → Bool) (size : Nat)
    (hp1 : ∀ h, p (.closeStatement h) = false) :
    ∀ (queue : List String) (cache : List (String × PreparedStatement))
      (s : SessionState),
      ((evictLoop cache queue size s).2.2.2.trace).filter p = s.trace.filter p := by
  intro queue
  induction queue with
  | nil =>
    intro cache s
    unfold evictLoop
    by_cases h : size ≤ cache.length <;> simp [h]
  | cons k rest ih =>
    intro cache s
    unfold evictLoop
    by_cases h : size ≤ cache.length
    · cases hdg : dictGet cache k with
      | none => simp [h, hdg]
      | some v =>
        simp only [h, hdg, if_true]
        rw [ih]
        simp [close_statement, SessionState.record, List.filter_append, hp1]
    · simp [h]

/-- Generic trace footprint of `get_prepared_statement`: it appends only
`createPreparedStatement` and `closeStatement` calls. -/
theorem gps_trace_filter (p : SessionCall → Bool)
    (hp1 : ∀ h, p (.closeStatement h) = false)
    (hp2 : ∀ q h, p (.createPreparedStatement q h) = false)
    (env : SessionEnv) (c : StatementCache) (q : String) (s : SessionState) :
    ((c.get_prepared_statement env q s).2.2.trace).filter p = s.trace.filter p := by
  unfold StatementCache.get_prepared_statement
  cases hdg : dictGet c._ps_cache q with
  | some st => by_cases hq : q ∈ c._ps_key_queue <;> simp [hq]
  | none =>
    simp only [create_prepared_statement]
    have hev := evictLoop_trace_filter p c._ps_cache_size hp1 c._ps_key_queue c._ps_cache
      { s with nextHandle := s.nextHandle + 1,
               trace := s.trace ++ [.createPreparedStatement q s.nextHandle] }
    rcases hres : evictLoop c._ps_cache c._ps_key_queue c._ps_cache_size
        { s with nextHandle := s.nextHandle + 1,
                 trace := s.trace ++ [.createPreparedStatement q s.nextHandle] }
      with ⟨r, cache', queue', s'⟩
    rw [hres] at hev
    simp only at hev
    cases r <;> simpa [List.filter_append, hp2] using hev

theorem dictGet_some_pair {d : List (String × PreparedStatement)} {k : String}
    {v : PreparedStatement} (h : dictGet d k = some v) :
    ∃ p ∈ d, p.1 = k ∧ p.2 = v := by
  unfold dictGet at h
  rcases hf : d.find? (fun p => p.1 == k) with _ | p
  · rw [hf] at h
    cases h
  · rw [hf] at h
    refine ⟨p, List.mem_of_find?_eq_some hf, ?_, by simpa using h⟩
    have := List.find?_some hf
    simpa [beq_iff_eq] using this

/-- On a cache whose entries record their own key as text (true of every
state the code can build), a handle resolved for `q` carries text `q`. -/
theorem gps_ok_text (env : SessionEnv) (c : StatementCache) (q : String)
    (s : SessionState) (pst : PreparedStatement) (cache' : StatementCache)
    (s' : SessionState)
    (hwf : ∀ p ∈ c._ps_cache, p.2.text = p.1)
    (h : c.get_prepared_statement env q s = (.ok pst, cache', s')) :
    pst.text = q := by
  unfold StatementCache.get_prepared_statement at h
  cases hdg : dictGet c._ps_cache q with
  | some st =>
    rw [hdg] at h
    by_cases hq : q ∈ c._ps_key_queue
    · simp only [hq, if_pos] at h
      obtain ⟨hp, hmem, hpk, hpv⟩ := dictGet_some_pair hdg
      have hst : st = pst := by
        have := congrArg (fun t => t.1) h
        simpa using this
      rw [← hst, ← hpv, hwf hp hmem, hpk]
    · simp [hq] at h
  | none =>
    rw [hdg] at h
    rcases hev : evictLoop c._ps_cache c._ps_key_queue c._ps_cache_size
        (create_prepared_statement env q s).2 with ⟨r, cache'', queue'', s''⟩
    simp only [create_prepared_statement] at h hev
    rw [hev] at h
    cases r with
    | error e => simp at h
    | ok u =>
      have := congrArg (fun t => t.1) h
      simp only at this
      rw [← Except.ok.inj this]

/-- The trace left by `Cursor.close` on an open cursor holding a result set:
the cache-shutdown statement closes come first, then the result-set close. -/
theorem close_trace (c : Cursor) (s : SessionState) (rs : ResultSet)
    (hopen : c.closed = false) (hsopen : s.closed = false)
    (hrs : c._result_set = some rs) :
    (c.close s).2.2.trace =
      s.trace ++ ([.closeStatement c._statement_cache._statement]
        ++ c._statement_cache._ps_cache.map (fun p => .closeStatement p.2.handle))
      ++ [.resultSetClose rs.id] := by
  have hcc : c._check_closed s = .ok () := by
    unfold Cursor._check_closed
    simp [hopen, hsopen]
  unfold Cursor.close
  rw [hcc]
  simp only [hrs]
  rw [show (c._statement_cache.shutdown s) =
      ((c._statement_cache.shutdown s).1, (c._statement_cache.shutdown s).2) from rfl]
  simp only [hrs]
  rw [shutdown_state]
  simp [ResultSet.close, SessionState.record, List.append_assoc]

/-- Generic trace footprint of `execute`: it never appends a result-set close
(only statement creates/closes, executes, and result-set fetches). -/
theorem execute_trace_filter (p : SessionCall → Bool)
    (hp1 : ∀ h, p (.closeStatement h) = false)
    (hp2 : ∀ q h, p (.createPreparedStatement q h) = false)
    (hp3 : ∀ h q, p (.executeStatement h q) = false)
    (hp4 : ∀ h n, p (.executePreparedStatement h n) = false)
    (hp5 : ∀ r, p (.fetchResultSet r) = false)
    (hp6 : ∀ r, p (.fetchResultSetDescription r) = false)
    (env : SessionEnv) (c : Cursor) (op : String) (params : Option (List Int))
    (s : SessionState) :
    ((c.execute env op params s).2.2.trace).filter p = s.trace.filter p := by
  unfold Cursor.execute
  cases hcc : c._check_closed s with
  | error e => rfl
  | ok u =>
    cases params with
    | none =>
      simp only [Cursor._execute, execute_statement, StatementCache.get_statement]
      by_cases hres : (env.exec_result op) > 0 <;>
        simp [hres, fetch_result_set, fetch_result_set_description,
          SessionState.record, List.filter_append, hp3, hp5, hp6]
    | some ps =>
      simp only [Cursor._executeprepared]
      have hgps := gps_trace_filter p hp1 hp2 env
        ({ c._reset with __query := some op })._statement_cache op s
      rcases hg : StatementCache.get_prepared_statement env
          ({ c._reset with __query := some op })._statement_cache op s
        with ⟨r, cache', s'⟩
      rw [hg] at hgps
      simp only at hgps
      cases r with
      | error e => simp [hg, hgps]
      | ok pst =>
        simp only [hg]
        by_cases hcount : pst.parameter_count ≠ ps.length
        · simp [hcount, hgps]
        · simp only [hcount, if_false, execute_prepared_statement, if_neg]
          by_cases hres : (env.exec_result pst.text) > 0 <;>
            simp [hres, fetch_result_set, fetch_result_set_description,
              SessionState.record, List.filter_append, hp3, hp4, hp5, hp6, hgps]

theorem isRsClose_fetchRow (i : Nat) :
    isRsClose (SessionCall.resultSetFetchRow i) = false := rfl

theorem isRsClose_batch (h n : Nat) :
    isRsClose (SessionCall.executeBatchPreparedStatement h n) = false := rfl

theorem filter_isRsClose_replicate (k i : Nat) :
    (List.replicate k (SessionCall.resultSetFetchRow i)).filter isRsClose = [] := by
  apply List.filter_eq_nil_iff.mpr
  intro x hx
  rw [List.eq_of_mem_replicate hx, isRsClose_fetchRow]
  simp

/-- C10: `execute` on a cursor holding an open result set discards the held
reference without issuing any result-set close through the session (when the
new execution produces no result set, the reference stays absent); every
other operation except `close` also leaves the result-set-close footprint of
the trace unchanged, and `close` is the one operation that appends a
result-set close. -/
theorem C10_result_set_frame (env : SessionEnv) (c : Cursor) (s : SessionState)
    (rs : ResultSet) (hopen : c.closed = false) (hsopen : s.closed = false)
    (hrs : c._result_set = some rs)
    (hwf : ∀ p ∈ c._statement_cache._ps_cache, p.2.text = p.1) :
    (∀ op params,
      ((c.execute env op params s).2.2.trace).filter isRsClose =
        s.trace.filter isRsClose) ∧
    (∀ op params, env.exec_result op ≤ 0 →
      (c.execute env op params s).2.1._result_set = none) ∧
    (∀ op seq,
      ((c.executemany env op seq s).2.2.trace).filter isRsClose =
        s.trace.filter isRsClose) ∧
    (((c.fetchone s).2.2.trace).filter isRsClose = s.trace.filter isRsClose) ∧
    (∀ n, ((c.fetchmany n s).2.2.trace).filter isRsClose =
      s.trace.filter isRsClose) ∧
    (((c.fetchall s).2.2.trace).filter isRsClose = s.trace.filter isRsClose) ∧
    (∀ pn pr, (c.callproc pn pr s).2.2 = s) ∧
    ((c.nextset s).2.2 = s) ∧
    (∀ sizes, (c.setinputsizes sizes s).2.2 = s) ∧
    (∀ a b, (c.setoutputsize a b s).2.2 = s) ∧
    (((c.close s).2.2.trace).filter isRsClose =
      s.trace.filter isRsClose ++ [.resultSetClose rs.id]) := by
  have hcc : c._check_closed s = .ok () := by
    unfold Cursor._check_closed
    simp [hopen, hsopen]
  have hfalse1 : ∀ h, isRsClose (.closeStatement h) = false := fun _ => rfl
  have hfalse2 : ∀ q h, isRsClose (.createPreparedStatement q h) = false :=
    fun _ _ => rfl
  refine ⟨fun op params => execute_trace_filter isRsClose hfalse1 hfalse2
      (fun _ _ => rfl) (fun _ _ => rfl) (fun _ => rfl) (fun _ => rfl) env c op params s,
    fun op params hle => ?_, fun op seq => ?_, ?_, fun n => ?_, ?_,
    fun pn pr => ?_, ?_, fun sizes => ?_, fun a b => ?_, ?_⟩
  · unfold Cursor.execute
    rw [hcc]
    cases params with
    | none =>
      simp only [Cursor._execute, execute_statement, StatementCache.get_statement]
      have hng : ¬ (env.exec_result op > 0) := by omega
      simp [hng, Cursor._reset]
      split <;> rfl
    | some ps =>
      simp only [Cursor._executeprepared]
      rcases hg : StatementCache.get_prepared_statement env c._statement_cache op s
        with ⟨r, cache', s'⟩
      cases r with
      | error e => simp [hg, Cursor._reset]
      | ok pst =>
        by_cases hcount : pst.parameter_count ≠ ps.length
        · simp [hg, hcount, Cursor._reset]
        · have hpst : pst.text = op :=
            gps_ok_text env c._statement_cache op s pst cache' s' hwf hg
          have hng : ¬ (env.exec_result pst.text > 0) := by rw [hpst]; omega
          simp [hg, hcount, execute_prepared_statement, hng, Cursor._reset]
          split <;> rfl
  · unfold Cursor.executemany
    rw [hcc]
    have hgps := gps_trace_filter isRsClose hfalse1 hfalse2 env
      c._statement_cache op s
    rcases hg : StatementCache.get_prepared_statement env c._statement_cache op s
      with ⟨r, cache', s'⟩
    rw [hg] at hgps
    simp only at hgps
    cases r with
    | error e => simpa [hg] using hgps
    | ok pst =>
      simp [hg, execute_batch_prepared_statement, SessionState.record,
        List.filter_append, isRsClose_batch, hgps]
  · rw [fetchone_spec c s rs hopen hsopen hrs]
    simp [SessionState.record, List.filter_append, isRsClose_fetchRow]
  · cases n with
    | none =>
      unfold Cursor.fetchmany
      rw [hcc]
      rw [fetchmanyLoop_spec c.arraysize c s rs [] hopen hsopen hrs]
      simp [List.filter_append, filter_isRsClose_replicate]
    | some m =>
      rw [fetchmany_spec c s rs m hopen hsopen hrs]
      simp [List.filter_append, filter_isRsClose_replicate]
  · rw [fetchall_spec c s rs hopen hsopen hrs]
    simp [List.filter_append, filter_isRsClose_replicate]
  · unfold Cursor.callproc
    split <;> rfl
  · rfl
  · rfl
  · rfl
  · rw [close_trace c s rs hopen hsopen hrs]
    have hmap : (c._statement_cache._ps_cache.map
        (fun p => SessionCall.closeStatement p.2.handle)).filter isRsClose = [] := by
      apply List.filter_eq_nil_iff.mpr
      intro x hx
      rcases List.mem_map.mp hx with ⟨p, -, rfl⟩
      simp [hfalse1]
    simp [List.filter_append, hmap, hfalse1, isRsClose]

/-- C10 witness: on the concrete cursor holding result set 7, `execute`
leaves the result-set-close footprint of the trace unchanged and clears the
held reference, while `close` appends the one result-set close. -/
theorem C10_result_set_frame_witness :
    ((cursorRsW.execute envW "upd" none sessW).2.2.trace).filter isRsClose =
      sessW.trace.filter isRsClose ∧
    (cursorRsW.execute envW "upd" none sessW).2.1._result_set = none ∧
    ((cursorRsW.close sessW).2.2.trace).filter isRsClose =
      sessW.trace.filter isRsClose ++ [.resultSetClose 7] := by
  have h := C10_result_set_frame envW cursorRsW sessW
    { id := 7, text := "sel", rows := [[1], [2]] } rfl rfl rfl
    (by intro p hp; cases hp)
  exact ⟨h.1 "upd" none, h.2.1 "upd" none (by decide),
    h.2.2.2.2.2.2.2.2.2.2⟩

end PyNuoDB
